import Mathlib

/-!
# Verification of the `foodsearch` command-line client (`src/main.go`)

The program is sequential glue around two HTTP calls.  It is embedded here as pure
functions over an explicit `World` (the configuration, the network and a few library
routines that are not part of the repository) that return the trace of observable events
together with the way the process ends.

Conventions of the embedding:

* Go `string` values are modelled as Lean `String`s (sequences of Unicode code points);
  character-level routines work on `List Char`.  Input that is not valid UTF-8 is outside
  the model.
* Go `int` is the 64-bit signed integer; values are carried as `Int` and the range is
  enforced where the program creates integers from text (`strconv.Atoi`, JSON numbers).
* Standard-library routines the program calls (`strings.TrimSpace`, `strings.EqualFold`,
  `strconv.Atoi`, `bufio.Reader.ReadString`, the struct binding of `encoding/json`) are
  modelled from their documented behaviour; routines whose result the program only
  passes on (`http.NewRequest` validation, `%.0f` formatting, the binding of the search
  response) are fields of `World`.
-/

namespace GoProject

/-! ## Library routines on text -/

/-- Go `unicode.IsSpace`: the code points with the Unicode White_Space property. -/
def isSpace (c : Char) : Bool :=
  let n := c.toNat
  (0x09 ≤ n && n ≤ 0x0D) || n == 0x20 || n == 0x85 || n == 0xA0 || n == 0x1680 ||
  (0x2000 ≤ n && n ≤ 0x200A) || n == 0x2028 || n == 0x2029 || n == 0x202F ||
  n == 0x205F || n == 0x3000

/-- Go `strings.TrimSpace` on code points: drop leading and trailing white space. -/
def trimSpaceChars (s : List Char) : List Char :=
  ((s.dropWhile isSpace).reverse.dropWhile isSpace).reverse

/-- Go `strings.TrimSpace`. -/
def trimSpace (s : String) : String := ⟨trimSpaceChars s.data⟩

/-- Go `bufio.Reader.ReadString(delim)` on the unread input: the text up to and including
the first `delim` (all of the input when there is none; the `io.EOF` error of that case
is dropped by the callers), and the input left unread. -/
def readString (delim : Char) : List Char → List Char × List Char
  | [] => ([], [])
  | c :: cs =>
    if c = delim then ([c], cs)
    else ((c :: (readString delim cs).1), (readString delim cs).2)

/-- Value of a decimal digit, `none` for any other character. -/
def digitVal (c : Char) : Option Nat :=
  if 0x30 ≤ c.toNat ∧ c.toNat ≤ 0x39 then some (c.toNat - 0x30) else none

/-- Accumulate decimal digits left to right; `none` as soon as a non-digit is met. -/
def parseDigits : List Char → Nat → Option Nat
  | [], acc => some acc
  | c :: cs, acc =>
    match digitVal c with
    | some d => parseDigits cs (acc * 10 + d)
    | none => none

/-- Width in bits of Go `int` on the platforms the program targets. -/
def intSize : Nat := 64

/-- Go `strconv.Atoi` (base 10, `int` of `intSize` bits): an optional sign followed by
at least one decimal digit, the value within the range of `int`; `none` stands for the
non-nil error (syntax or range). -/
def atoiChars (s : List Char) : Option Int :=
  match s with
  | [] => none
  | c :: cs =>
    let neg := c == '-'
    let digits := if c == '-' || c == '+' then cs else c :: cs
    match digits with
    | [] => none
    | d :: ds =>
      match parseDigits (d :: ds) 0 with
      | none => none
      | some n =>
        if neg then (if n ≤ 2 ^ (intSize - 1) then some (-(n : Int)) else none)
        else (if n < 2 ^ (intSize - 1) then some (n : Int) else none)

/-- Go `strconv.Atoi`. -/
def Atoi (s : String) : Option Int := atoiChars s.data

/-- Go `unicode.SimpleFold` on the fold orbits that contain an ASCII character: the
next larger member of the orbit, wrapping round to the smallest.  Besides the pairs
`A`/`a` .. `Z`/`z` these are the orbits `K k U+212A` and `S s U+017F`.  Characters of
other orbits are returned unchanged; a comparison against ASCII text never walks them. -/
def simpleFold (c : Char) : Char :=
  let n := c.toNat
  if n = 0x6B then Char.ofNat 0x212A
  else if n = 0x73 then Char.ofNat 0x17F
  else if n = 0x212A then Char.ofNat 0x4B
  else if n = 0x17F then Char.ofNat 0x53
  else if 0x41 ≤ n ∧ n ≤ 0x5A then Char.ofNat (n + 0x20)
  else if 0x61 ≤ n ∧ n ≤ 0x7A then Char.ofNat (n - 0x20)
  else c

/-- The orbit walk of `strings.EqualFold`:
`for r != sr && r < tr { r = unicode.SimpleFold(r) }`, with the number of remaining
iterations as fuel; `none` when the fuel runs out before the loop ends. -/
def foldWalk : Nat → Char → Char → Char → Option Char
  | 0, _, _, _ => none
  | fuel + 1, sr, tr, r =>
    if r ≠ sr ∧ r.toNat < tr.toNat then foldWalk fuel sr tr (simpleFold r) else some r

/-- One step of `strings.EqualFold`: do the code points `a` and `b` agree under simple
case folding?  The smaller one is called `sr`, the larger `tr`, as in the Go source. -/
def runeEqualFold (a b : Char) : Bool :=
  if a = b then true
  else
    let sr := if b.toNat < a.toNat then b else a
    let tr := if b.toNat < a.toNat then a else b
    if tr.toNat < 0x80 then
      (0x41 ≤ sr.toNat && sr.toNat ≤ 0x5A) && tr.toNat == sr.toNat + 0x20
    else
      match foldWalk 4 sr tr (simpleFold sr) with
      | some r => r == tr
      | none => false

/-- Go `strings.EqualFold` on code points. -/
def equalFoldChars : List Char → List Char → Bool
  | [], [] => true
  | [], _ :: _ => false
  | _ :: _, [] => false
  | a :: as, b :: bs => runeEqualFold a b && equalFoldChars as bs

/-- Go `strings.EqualFold`. -/
def EqualFold (s t : String) : Bool := equalFoldChars s.data t.data

/-! ## Data model (`src/main.go`, lines 31-56) -/

/-- Go `float32`, carried as its bit pattern; the program only prints it. -/
structure Float32 where
  bits : Nat
  deriving DecidableEq, Repr

/-- Go struct `Nutrition`. -/
structure Nutrition where
  Calories : Float32
  Fat : String
  Protein : String
  Carbs : String
  deriving DecidableEq, Repr

/-- Go struct `MenuItem`. -/
structure MenuItem where
  ID : Int
  Title : String
  RestaurantChain : String
  Image : String
  Nutrition : Nutrition
  deriving DecidableEq, Repr

/-- Go struct `RecipeResponse`; the last field is the unexported `vegan`. -/
structure RecipeResponse where
  Instructions : String
  GlutenFree : Bool
  ReadyInMins : Int
  Servings : Int
  vegan : Bool
  deriving DecidableEq, Repr

/-- Zero value of `MenuItem` (`var selectedItem MenuItem`). -/
def MenuItem.zero : MenuItem := ⟨0, "", "", "", ⟨⟨0⟩, "", "", ""⟩⟩

/-- Zero value of `RecipeResponse` (`RecipeResponse{}`, `var recipeResponse`). -/
def RecipeResponse.zero : RecipeResponse := ⟨"", false, 0, 0, false⟩

/-- Constant `searchAPI`. -/
def searchAPI : String :=
  "https://api.apilayer.com/spoonacular/food/menuItems/search?query="

/-- Constant `recipeAPI` applied to an identifier: `fmt.Sprintf(recipeAPI, id)`. -/
def recipeURL (id : Int) : String :=
  "https://api.apilayer.com/spoonacular/recipes/" ++ toString id ++ "/information"

/-! ## Errors, JSON values, HTTP -/

/-- Go `error` values met by the program, kept apart by where they are created. -/
inductive GoError where
  /-- Created by `fmt.Errorf` without a wrapping verb. -/
  | errorf (msg : String)
  /-- Created by `fmt.Errorf(prefix + "%w", inner)`. -/
  | wrap (pre : String) (inner : GoError)
  /-- Returned by `http.NewRequest`. -/
  | request (detail : String)
  /-- Returned by `http.Client.Do`. -/
  | transport (detail : String)
  /-- Returned by `json.Decoder.Decode`. -/
  | decode (detail : String)
  deriving DecidableEq, Repr

/-- Go method `Error()`. -/
def GoError.Error : GoError → String
  | .errorf msg => msg
  | .wrap pre inner => pre ++ inner.Error
  | .request d => d
  | .transport d => d
  | .decode d => d

/-- The error `searchMenuItems` creates for status 401. -/
def unauthorizedError : GoError :=
  .errorf "unauthorized: check if the API key is correct and properly included in the header"

/-- A JSON value as the scanner of `encoding/json` delivers it; numbers keep their
literal text, objects keep their members in order, duplicates included. -/
inductive JSON where
  | null
  | bool (b : Bool)
  | num (lit : String)
  | str (s : String)
  | arr (elems : List JSON)
  | obj (members : List (String × JSON))

/-- What `json.NewDecoder(resp.Body)` finds at the start of a response body: an error
(read failure, end of input, malformed text) or the first JSON value. -/
abbrev Body := Except String JSON

/-- Go `http.Response`, as far as the program looks at it. -/
structure Response where
  StatusCode : Int
  Body : Body

/-- Outcome of `client.Do(req)`. -/
inductive HttpResult where
  /-- A response and a nil error. -/
  | response (r : Response)
  /-- A nil response and a non-nil error. -/
  | failed (detail : String)
  /-- The redirect policy failed: a response whose body is already closed together
  with a non-nil error. -/
  | redirectFailed (statusCode : Int) (detail : String)

/-- Everything outside the program that a run depends on. -/
structure World where
  /-- Result of `godotenv.Load()`: `none` when `.env` cannot be read or parsed,
  otherwise the variables the file assigns. -/
  dotenv : Option (String → Option String)
  /-- Process environment at start (`os.LookupEnv`). -/
  environ : String → Option String
  /-- Error of `http.NewRequest("GET", url, nil)`, `none` when the URL is accepted. -/
  newRequestError : String → Option String
  /-- What `client.Do` yields for a GET of the URL with the `apikey` header. -/
  roundTrip : String → String → HttpResult
  /-- Binding of a JSON value to `SearchResponse` by `encoding/json`, reduced to the
  `MenuItems` field; the error text on failure. -/
  bindSearch : JSON → Except String (List MenuItem)
  /-- Rendering of a `float32` by the verb `%.0f`. -/
  formatF0 : Float32 → String

/-- Observable events of a run, in order. -/
inductive Event where
  /-- Text written to standard output by one `fmt.Print*` call. -/
  | stdout (text : String)
  /-- One `client.Do`: a GET of `url` carrying header `apikey`. -/
  | httpGet (url : String) (apikey : String)
  /-- Invocation of `fetchRecipe(id)` by `runCLI`. -/
  | fetchRecipeCall (id : Int)
  deriving DecidableEq, Repr

/-- How a function call ends. -/
inductive Result (α : Type) where
  /-- Normal return. -/
  | ret (a : α)
  /-- Go `log.Fatal(msg)`: message on standard error, exit status 1. -/
  | fatal (msg : String)
  /-- Run-time panic (nil pointer dereference). -/
  | panicked (msg : String)
  deriving DecidableEq, Repr

/-- How the process ends after `runCLI`. -/
inductive Exit where
  | normal
  | fatal (msg : String)
  | panicked (msg : String)
  deriving DecidableEq, Repr

/-! ## `loadAPIKey` (lines 19-29) -/

/-- Go `os.Getenv(key)` after a successful `godotenv.Load()` that read the assignments
`file`: `Load` sets a variable only when the process environment does not have it yet,
and `Getenv` yields the empty string for a variable that is not set. -/
def getenvAfterLoad (w : World) (file : String → Option String) (key : String) : String :=
  match w.environ key with
  | some v => v
  | none => (file key).getD ""

/-- Go function `loadAPIKey`. -/
def loadAPIKey (w : World) : Result String :=
  match w.dotenv with
  | none => .fatal "Error loading .env file"
  | some file =>
    let apiKey := getenvAfterLoad w file "API_KEY"
    if apiKey = "" then .fatal "API key not found in environment variables"
    else .ret apiKey

/-! ## `searchMenuItems` (lines 59-87) -/

/-- The request URL of `searchMenuItems`:
`fmt.Sprintf("%s%s&addMenuItemInformation=true", searchAPI, query)`. -/
def searchURL (query : String) : String :=
  searchAPI ++ query ++ "&addMenuItemInformation=true"

/-- Go `json.NewDecoder(resp.Body).Decode(&searchResponse)`, reduced to the decoded
`MenuItems`. -/
def decodeSearch (w : World) (body : Body) : Except String (List MenuItem) :=
  match body with
  | .error e => .error e
  | .ok j => w.bindSearch j

/-- Go function `searchMenuItems`: the events of the call and the returned pair
`([]MenuItem, error)`. -/
def searchMenuItems (w : World) (query : String) :
    List Event × Result (List MenuItem × Option GoError) :=
  match loadAPIKey w with
  | .fatal msg => ([], .fatal msg)
  | .panicked msg => ([], .panicked msg)
  | .ret apiKey =>
    let url := searchURL query
    match w.newRequestError url with
    | some e => ([], .ret ([], some (.request e)))
    | none =>
      match w.roundTrip url apiKey with
      | .failed e => ([.httpGet url apiKey], .ret ([], some (.transport e)))
      | .redirectFailed _ e => ([.httpGet url apiKey], .ret ([], some (.transport e)))
      | .response resp =>
        if resp.StatusCode = 401 then
          ([.httpGet url apiKey], .ret ([], some unauthorizedError))
        else
          match decodeSearch w resp.Body with
          | .error e => ([.httpGet url apiKey], .ret ([], some (.decode e)))
          | .ok items => ([.httpGet url apiKey], .ret (items, none))

/-! ## Binding a JSON value to `RecipeResponse` (`encoding/json`) -/

/-- Fold one code point of a member name as `encoding/json` does before comparing
names: ASCII letters to upper case, `U+017F` to `S`, `U+212A` to `K` (the smallest
member of the fold orbit); other code points fold among themselves and are kept. -/
def foldRune (c : Char) : Char :=
  let n := c.toNat
  if 0x61 ≤ n ∧ n ≤ 0x7A then Char.ofNat (n - 0x20)
  else if n = 0x17F then 'S'
  else if n = 0x212A then 'K'
  else c

/-- Does the member name `key` of a JSON object select the struct field tagged `tag`?
An exact match, or a match after case folding. -/
def keyMatches (tag key : String) : Bool :=
  key == tag || key.data.map foldRune == tag.data.map foldRune

/-- Store one object member into the struct, as `encoding/json` does for the exported
fields `Instructions`, `GlutenFree`, `ReadyInMins` and `Servings` (the unexported field
`vegan` is not among the fields the package sees, so a member named `vegan` is skipped
like any unknown name).  A `null` leaves the field as it is; a value of the wrong kind
leaves the field as it is and reports an error. -/
def storeMember (r : RecipeResponse) (key : String) (v : JSON) :
    RecipeResponse × Option String :=
  if keyMatches "instructions" key then
    match v with
    | .str s => ({ r with Instructions := s }, none)
    | .null => (r, none)
    | _ => (r, some "json: cannot unmarshal into Go struct field RecipeResponse.instructions")
  else if keyMatches "glutenFree" key then
    match v with
    | .bool b => ({ r with GlutenFree := b }, none)
    | .null => (r, none)
    | _ => (r, some "json: cannot unmarshal into Go struct field RecipeResponse.glutenFree")
  else if keyMatches "readyInMinutes" key then
    match v with
    | .num lit =>
      match Atoi lit with
      | some n => ({ r with ReadyInMins := n }, none)
      | none =>
        (r, some "json: cannot unmarshal number into Go struct field RecipeResponse.readyInMinutes")
    | .null => (r, none)
    | _ => (r, some "json: cannot unmarshal into Go struct field RecipeResponse.readyInMinutes")
  else if keyMatches "servings" key then
    match v with
    | .num lit =>
      match Atoi lit with
      | some n => ({ r with Servings := n }, none)
      | none =>
        (r, some "json: cannot unmarshal number into Go struct field RecipeResponse.servings")
    | .null => (r, none)
    | _ => (r, some "json: cannot unmarshal into Go struct field RecipeResponse.servings")
  else (r, none)

/-- Store the members of an object in order; the first error is kept and decoding goes
on with the next member. -/
def storeMembers : List (String × JSON) → RecipeResponse → Option String →
    RecipeResponse × Option String
  | [], r, err => (r, err)
  | (k, v) :: rest, r, err =>
    storeMembers rest (storeMember r k v).1 (err.orElse fun _ => (storeMember r k v).2)

/-- Go `json.NewDecoder(resp.Body).Decode(&recipeResponse)` on a zero `recipeResponse`:
the struct after the call and the error. -/
def decodeRecipe (body : Body) : RecipeResponse × Option String :=
  match body with
  | .error e => (RecipeResponse.zero, some e)
  | .ok (.obj members) => storeMembers members RecipeResponse.zero none
  | .ok .null => (RecipeResponse.zero, none)
  | .ok _ =>
    (RecipeResponse.zero, some "json: cannot unmarshal into Go value of type main.RecipeResponse")

/-! ## `fetchRecipe` (lines 90-108) -/

/-- Go function `fetchRecipe`: the events of the call and the returned pair
`(RecipeResponse, error)`.  The error of `client.Do` is overwritten and the error of
`Decode` is dropped: after the request has been built the function returns `nil` as
error whenever it returns.  When `client.Do` yields a nil response,
`defer resp.Body.Close()` dereferences it. -/
def fetchRecipe (w : World) (id : Int) :
    List Event × Result (RecipeResponse × Option GoError) :=
  match loadAPIKey w with
  | .fatal msg => ([], .fatal msg)
  | .panicked msg => ([], .panicked msg)
  | .ret apiKey =>
    let url := recipeURL id
    match w.newRequestError url with
    | some e =>
      ([], .ret (RecipeResponse.zero, some (.wrap "Error creating request: " (.request e))))
    | none =>
      match w.roundTrip url apiKey with
      | .failed _ =>
        ([.httpGet url apiKey],
          .panicked "runtime error: invalid memory address or nil pointer dereference")
      | .redirectFailed _ _ =>
        ([.httpGet url apiKey],
          .ret ((decodeRecipe (.error "http: read on closed response body")).1, none))
      | .response resp => ([.httpGet url apiKey], .ret ((decodeRecipe resp.Body).1, none))

/-- Go function `getVeganStatus`. -/
def getVeganStatus (recipe : RecipeResponse) : String :=
  if recipe.vegan then "Yes ✅" else "No ❌"

/-- Go function `getGlutenFreeStatus`. -/
def getGlutenFreeStatus (recipe : RecipeResponse) : String :=
  if recipe.GlutenFree then "Yes ✅" else "No ❌"

/-! ## `runCLI` (lines 111-178) -/

/-- The verb `%3d`: decimal, right-aligned in a field of width 3. -/
def fmtD3 (n : Int) : String :=
  ⟨List.replicate (3 - (toString n).length) ' '⟩ ++ toString n

/-- The separator line printed after the banner and after every entry. -/
def ruleLine : String := "--------------------------------------------------\n"

/-- Line 118. -/
def bannerText : String :=
  "\n🍔✨ Browse for more information on the Menu Items Found in the restaurants near you..:✨🍔\n"

/-- Line 129. -/
def idPrompt : String := "\nPlease enter the ID of the item you want to know more about: "

/-- Line 134. -/
def invalidIDText : String := "❌ Invalid ID. Please enter a valid number.\n"

/-- Line 147. -/
def notFoundText : String := "❌ No matching item found with the specified ID.\n"

/-- Line 168. -/
def recipePrompt : String := "\nDo you want the recipe? (yes/no): "

/-- Line 173. -/
def instructionsHeader : String := "\n🥗 Recipe Instructions:\n"

/-- Line 176. -/
def declineText : String := "No recipe requested.\n"

/-- Line 122: first line of a list entry. -/
def itemLine (item : MenuItem) : String :=
  "\x1b[1;36m" ++ fmtD3 item.ID ++ " - " ++ item.Title ++ "\x1b[0m\n"

/-- Line 123: second line of a list entry. -/
def restaurantLine (item : MenuItem) : String :=
  "\x1b[1;32m   Restaurant: \x1b[0m" ++ item.RestaurantChain ++ "\n"

/-- The list-display loop, lines 120-126. -/
def displayLoop : List MenuItem → List Event
  | [] => []
  | item :: rest =>
    .stdout (itemLine item) :: .stdout (restaurantLine item) :: .stdout ruleLine ::
      displayLoop rest

/-- The selection loop, lines 138-144: the first item whose `ID` is `selectedID`, the
zero `MenuItem` when the loop ends without assigning. -/
def findSelected (selectedID : Int) : List MenuItem → MenuItem
  | [] => MenuItem.zero
  | item :: rest => if item.ID = selectedID then item else findSelected selectedID rest

/-- Output of lines 156-166. -/
def detailOutput (w : World) (item : MenuItem) (recipe : RecipeResponse) : List Event :=
  [ .stdout ("\n🍔 Found: " ++ item.Title ++ " at " ++ item.RestaurantChain ++ "\n"),
    .stdout ("🖼️ Image: " ++ item.Image ++ "\n"),
    .stdout ("🔥 Calories in " ++ item.Title ++ ": " ++ w.formatF0 item.Nutrition.Calories ++
      " kcal\n"),
    .stdout ("🔥 Carbs in " ++ item.Title ++ ": " ++ item.Nutrition.Carbs ++ " \n"),
    .stdout ("🔥 Protein in " ++ item.Title ++ ": " ++ item.Nutrition.Protein ++ " \n"),
    .stdout ("🔥 Fats in " ++ item.Title ++ ": " ++ item.Nutrition.Fat ++ " \n"),
    .stdout ("\n🌱 Is it Vegan?  " ++ getVeganStatus recipe ++ "\n"),
    .stdout ("🍞 Is it Gluten-Free?  " ++ getGlutenFreeStatus recipe ++ "\n"),
    .stdout ("⏳ Ready in: " ++ toString recipe.ReadyInMins ++ " minutes\n"),
    .stdout ("🍽️ Servings: " ++ toString recipe.Servings ++ "\n") ]

/-- Lines 168-177: prompt, read the confirmation line from the unread input, print the
instructions or the decline message. -/
def confirmStep (recipe : RecipeResponse) (input : List Char) : List Event :=
  let recipeResponse := trimSpace ⟨(readString '\n' input).1⟩
  if EqualFold recipeResponse "yes" then
    [.stdout recipePrompt, .stdout instructionsHeader, .stdout (recipe.Instructions ++ "\n")]
  else
    [.stdout recipePrompt, .stdout declineText]

/-- Lines 151-177: fetch the recipe of the selected item, print the details, confirm. -/
def detailStep (w : World) (selectedItem : MenuItem) (input : List Char) :
    List Event × Exit :=
  match fetchRecipe w selectedItem.ID with
  | (ev, .fatal msg) => (.fetchRecipeCall selectedItem.ID :: ev, .fatal msg)
  | (ev, .panicked msg) => (.fetchRecipeCall selectedItem.ID :: ev, .panicked msg)
  | (ev, .ret (_, some err)) =>
    (.fetchRecipeCall selectedItem.ID :: ev,
      .fatal ("Error fetching recipe details:" ++ err.Error))
  | (ev, .ret (recipeDetails, none)) =>
    (.fetchRecipeCall selectedItem.ID :: ev ++ detailOutput w selectedItem recipeDetails ++
      confirmStep recipeDetails input, .normal)

/-- Lines 128-177: prompt for the identifier, read and parse one line of `input`, look
the identifier up in `items`, and go on with the selected item. -/
def selectionStep (w : World) (items : List MenuItem) (input : List Char) :
    List Event × Exit :=
  let idStr := trimSpace ⟨(readString '\n' input).1⟩
  match Atoi idStr with
  | none => ([.stdout idPrompt, .stdout invalidIDText], .normal)
  | some selectedID =>
    let selectedItem := findSelected selectedID items
    if selectedItem.ID = 0 then ([.stdout idPrompt, .stdout notFoundText], .normal)
    else
      (.stdout idPrompt :: (detailStep w selectedItem (readString '\n' input).2).1,
        (detailStep w selectedItem (readString '\n' input).2).2)

/-- Go function `runCLI` for the flag value `query` and the text `stdin` waiting on
standard input: the events of the run and the way the process ends. -/
def runCLI (w : World) (query : String) (stdin : String) : List Event × Exit :=
  match searchMenuItems w query with
  | (ev, .fatal msg) => (ev, .fatal msg)
  | (ev, .panicked msg) => (ev, .panicked msg)
  | (ev, .ret (_, some err)) => (ev, .fatal ("Error fetching menu items:" ++ err.Error))
  | (ev, .ret (items, none)) =>
    (ev ++ .stdout bannerText :: .stdout ruleLine :: displayLoop items ++
        (selectionStep w items stdin.data).1,
      (selectionStep w items stdin.data).2)

/-! ## Reference notions used to state the claims -/

/-- The spellings of `yes` up to letter case: `y` or `Y`, then `e` or `E`, then `s`, `S`
or the long s `U+017F`, whose upper case is `S` as well. -/
def isYes (t : String) : Bool :=
  match t.data with
  | [a, b, c] =>
    (a == 'y' || a == 'Y') && (b == 'e' || b == 'E') &&
      (c == 's' || c == 'S' || c == Char.ofNat 0x17F)
  | _ => false

/-- The confirmation line of a run, trimmed: the second line of standard input. -/
def confirmationAnswer (stdin : String) : String :=
  trimSpace ⟨(readString '\n' (readString '\n' stdin.data).2).1⟩

/-- The three lines that show one menu item: identifier and title, restaurant chain,
separator. -/
def entryOf (item : MenuItem) : List Event :=
  [ .stdout ("\x1b[1;36m" ++ fmtD3 item.ID ++ " - " ++ item.Title ++ "\x1b[0m\n"),
    .stdout ("\x1b[1;32m   Restaurant: \x1b[0m" ++ item.RestaurantChain ++ "\n"),
    .stdout "--------------------------------------------------\n" ]

/-- UTF-8 encoding of a text, as a list of byte values. -/
def utf8Bytes (s : List Char) : List Nat :=
  s.flatMap fun c => (String.utf8EncodeChar c).map UInt8.toNat

/-- Value of a hexadecimal digit. -/
def hexVal (c : Char) : Option Nat :=
  let n := c.toNat
  if 0x30 ≤ n ∧ n ≤ 0x39 then some (n - 0x30)
  else if 0x41 ≤ n ∧ n ≤ 0x46 then some (n - 0x41 + 10)
  else if 0x61 ≤ n ∧ n ≤ 0x66 then some (n - 0x61 + 10)
  else none

/-- Decoding of one component of a URL query string (RFC 3986 percent-decoding with
`+` for a space, as in `application/x-www-form-urlencoded`): the bytes it stands for,
`none` when a `%` is not followed by two hexadecimal digits. -/
def pctDecode : List Char → Option (List Nat)
  | [] => some []
  | c :: rest =>
    if c = '%' then
      match rest with
      | h :: l :: rest2 =>
        match hexVal h, hexVal l, pctDecode rest2 with
        | some a, some b, some bytes => some ((a * 16 + b) :: bytes)
        | _, _, _ => none
      | _ => none
    else
      match pctDecode rest with
      | some bytes => some ((if c = '+' then [0x20] else utf8Bytes [c]) ++ bytes)
      | none => none

/-- Split a text at every occurrence of `sep`. -/
def splitOnChar (sep : Char) : List Char → List (List Char)
  | [] => [[]]
  | c :: cs =>
    if c = sep then [] :: splitOnChar sep cs
    else
      match splitOnChar sep cs with
      | [] => [[c]]
      | seg :: segs => (c :: seg) :: segs

/-- The query component of a URL: what stands after the first `?`, up to a `#`. -/
def queryComponent (url : List Char) : List Char :=
  ((url.dropWhile fun c => c != '?').drop 1).takeWhile fun c => c != '#'

/-- First value of parameter `name` among the `&`-separated `name=value` pairs `pairs`,
decoded to bytes. -/
def firstValue (name : List Nat) : List (List Char) → Option (List Nat)
  | [] => none
  | pair :: pairs =>
    if pctDecode (pair.takeWhile fun c => c != '=') = some name then
      pctDecode ((pair.dropWhile fun c => c != '=').drop 1)
    else firstValue name pairs

/-- The value a server reads for the query parameter `name` of `url`: the query
component is split at `&`, each pair at its first `=`, and name and value are
percent-decoded. -/
def queryValue (url name : String) : Option (List Nat) :=
  firstValue (utf8Bytes name.data) (splitOnChar '&' (queryComponent url.data))

/-- The unreserved characters of RFC 3986: ASCII letters, digits, `-`, `.`, `_`, `~`. -/
def isUnreserved (c : Char) : Bool :=
  let n := c.toNat
  (0x41 ≤ n && n ≤ 0x5A) || (0x61 ≤ n && n ≤ 0x7A) || (0x30 ≤ n && n ≤ 0x39) ||
    n == 0x2D || n == 0x2E || n == 0x5F || n == 0x7E

/-- The boolean values of the members of a JSON object whose name selects the struct
field tagged `tag`, in the order of the object. -/
def boolMembers (tag : String) (members : List (String × JSON)) : List Bool :=
  members.filterMap fun kv =>
    match kv.2 with
    | .bool b => if keyMatches tag kv.1 then some b else none
    | _ => none

/-- The last boolean-valued member of the body object whose name equals `tag` up to
letter case; `none` when the body is not an object or has no such member. -/
def lastBoolMember (tag : String) (body : Body) : Option Bool :=
  match body with
  | .ok (.obj members) => (boolMembers tag members).getLast?
  | _ => none

/-- Is the member of the body object named exactly `name` the literal `true`?  (The
first member of that name is taken; `false` when the body is not an object or has no
member of that name.) -/
def fieldIsTrue (name : String) (body : Body) : Bool :=
  match body with
  | .ok (.obj members) =>
    match members.lookup name with
    | some (.bool true) => true
    | _ => false
  | _ => false

/-! ## Concrete worlds used to evaluate the program -/

/-- A search result with three items; the last one has identifier 0. -/
def sampleItems : List MenuItem :=
  [ ⟨42, "X", "Burger Barn", "https://img.example/x.png", ⟨⟨0⟩, "12g", "20g", "30g"⟩⟩,
    ⟨7, "Fries", "Fry House", "https://img.example/f.png", ⟨⟨0⟩, "9g", "3g", "40g"⟩⟩,
    ⟨0, "Shake", "Shake Shed", "https://img.example/s.png", ⟨⟨0⟩, "5g", "6g", "50g"⟩⟩ ]

/-- A recipe body with every wire field present, `vegan` and `glutenFree` both true. -/
def sampleRecipeBody : JSON :=
  .obj [("instructions", .str "Grill it."), ("glutenFree", .bool true),
        ("readyInMinutes", .num "15"), ("servings", .num "2"), ("vegan", .bool true)]

/-- A world with a configured key in `.env`, a server that answers the search for
`burger` with status 200 and every other request with status `status` and body `body`,
and a search binding that yields `sampleItems`. -/
def sampleWorld (status : Int) (body : Body) : World where
  dotenv := some fun k => if k = "API_KEY" then some "secret" else none
  environ := fun _ => none
  newRequestError := fun _ => none
  roundTrip := fun url _ =>
    if url = searchURL "burger" then .response ⟨200, .ok (.obj [])⟩
    else .response ⟨status, body⟩
  bindSearch := fun _ => .ok sampleItems
  formatF0 := fun _ => "0"

/-- A world without a `.env` file. -/
def noDotenvWorld : World where
  dotenv := none
  environ := fun _ => none
  newRequestError := fun _ => none
  roundTrip := fun _ _ => .failed "unreachable"
  bindSearch := fun _ => .ok []
  formatF0 := fun _ => "0"

/-! ## Auxiliary facts -/

theorem char_eq_of_toNat {c d : Char} (h : c.toNat = d.toNat) : c = d := by
  rw [← Char.ofNat_toNat c, ← Char.ofNat_toNat d, h]

theorem char_eq_iff_toNat (c d : Char) : c = d ↔ c.toNat = d.toNat :=
  ⟨fun h => by rw [h], char_eq_of_toNat⟩

theorem runeEqualFold_y (c : Char) :
    runeEqualFold c 'y' = true ↔ c = 'y' ∨ c = 'Y' := by
  have hy : ('y' : Char).toNat = 121 := rfl
  have hY : ('Y' : Char).toNat = 89 := rfl
  have f1 : simpleFold 'y' = 'Y' := by decide
  have f2 : simpleFold 'Y' = 'y' := by decide
  rw [char_eq_iff_toNat c 'y', char_eq_iff_toNat c 'Y', hy, hY]
  unfold runeEqualFold
  by_cases h1 : c = 'y'
  · subst h1; simp
  · have h1n : c.toNat ≠ 121 := fun h => h1 (char_eq_of_toNat (by rw [h, hy]))
    rw [if_neg h1]
    simp only [hy, hY]
    by_cases h2 : 121 < c.toNat
    · simp only [h2, if_true, hy]
      by_cases h3 : c.toNat < 128
      · simp only [h3, if_true]
        simp
        omega
      · simp only [h3, if_false, f1, foldWalk, hY, f2]
        have : (89 < c.toNat) := by omega
        have h1r : ¬ 'y' = c := fun h => h1 h.symm
        simp [this, h1r]
        omega
    · simp only [h2, if_false, hy]
      simp
      omega

theorem runeEqualFold_e (c : Char) :
    runeEqualFold c 'e' = true ↔ c = 'e' ∨ c = 'E' := by
  have hy : ('e' : Char).toNat = 101 := rfl
  have hY : ('E' : Char).toNat = 69 := rfl
  have f1 : simpleFold 'e' = 'E' := by decide
  have f2 : simpleFold 'E' = 'e' := by decide
  rw [char_eq_iff_toNat c 'e', char_eq_iff_toNat c 'E', hy, hY]
  unfold runeEqualFold
  by_cases h1 : c = 'e'
  · subst h1; simp
  · have h1n : c.toNat ≠ 101 := fun h => h1 (char_eq_of_toNat (by rw [h, hy]))
    rw [if_neg h1]
    simp only [hy, hY]
    by_cases h2 : 101 < c.toNat
    · simp only [h2, if_true, hy]
      by_cases h3 : c.toNat < 128
      · simp only [h3, if_true]
        simp
        omega
      · simp only [h3, if_false, f1, foldWalk, hY, f2]
        have : (69 < c.toNat) := by omega
        have h1r : ¬ 'e' = c := fun h => h1 h.symm
        simp [this, h1r]
        omega
    · simp only [h2, if_false, hy]
      simp
      omega

theorem runeEqualFold_s (c : Char) :
    runeEqualFold c 's' = true ↔ c = 's' ∨ c = 'S' ∨ c = Char.ofNat 0x17F := by
  have hy : ('s' : Char).toNat = 115 := rfl
  have hY : ('S' : Char).toNat = 83 := rfl
  have hL : (Char.ofNat 0x17F).toNat = 383 := rfl
  have f1 : simpleFold 's' = Char.ofNat 0x17F := by decide
  have f2 : simpleFold (Char.ofNat 0x17F) = 'S' := by decide
  have f3 : simpleFold 'S' = 's' := by decide
  have hLs : Char.ofNat 0x17F ≠ 's' := by decide
  have hSs : ('S' : Char) ≠ 's' := by decide
  rw [char_eq_iff_toNat c 's', char_eq_iff_toNat c 'S', char_eq_iff_toNat c (Char.ofNat 0x17F),
    hy, hY, hL]
  unfold runeEqualFold
  by_cases h1 : c = 's'
  · subst h1; simp
  · have h1n : c.toNat ≠ 115 := fun h => h1 (char_eq_of_toNat (by rw [h, hy]))
    have h1r : ¬ 's' = c := fun h => h1 h.symm
    rw [if_neg h1]
    simp only [hy, hY]
    by_cases h2 : 115 < c.toNat
    · simp only [h2, if_true, hy]
      by_cases h3 : c.toNat < 128
      · simp only [h3, if_true]
        simp
        omega
      · simp only [h3, if_false, f1, foldWalk, hL]
        by_cases h4 : 383 < c.toNat
        · have h5 : 83 < c.toNat := by omega
          simp [h4, hLs, f2, f3, hY, h5, hSs, h1r]
          omega
        · simp only [h4, and_false, if_false]
          simp only [beq_iff_eq]
          rw [eq_comm, char_eq_iff_toNat c (Char.ofNat 0x17F), hL]
          omega
    · simp only [h2, if_false, hy]
      simp
      omega

theorem simpleFold_orbit (c : Char) :
    simpleFold c = c ∨ simpleFold (simpleFold c) = c ∨
      simpleFold (simpleFold (simpleFold c)) = c := by
  by_cases h : (0x41 ≤ c.toNat ∧ c.toNat ≤ 0x5A) ∨ (0x61 ≤ c.toNat ∧ c.toNat ≤ 0x7A) ∨
      c.toNat = 0x212A ∨ c.toNat = 0x17F
  · have hc : c = Char.ofNat c.toNat := (Char.ofNat_toNat c).symm
    generalize c.toNat = n at h hc
    subst hc
    rcases h with ⟨h1, h2⟩ | ⟨h1, h2⟩ | h | h
    · interval_cases n <;> decide
    · interval_cases n <;> decide
    · subst h; decide
    · subst h; decide
  · left
    unfold simpleFold
    simp only
    rw [if_neg (by omega), if_neg (by omega), if_neg (by omega), if_neg (by omega),
      if_neg (by omega), if_neg (by omega)]

/-- The fuel given to the orbit walk in `runeEqualFold` is enough: the walk of
`strings.EqualFold` always ends. -/
theorem foldWalk_terminates (sr tr : Char) :
    ∃ r, foldWalk 4 sr tr (simpleFold sr) = some r := by
  have e : ∀ fuel r, foldWalk (fuel + 1) sr tr r =
      if r ≠ sr ∧ r.toNat < tr.toNat then foldWalk fuel sr tr (simpleFold r) else some r :=
    fun _ _ => rfl
  by_cases h1 : simpleFold sr ≠ sr ∧ (simpleFold sr).toNat < tr.toNat
  · by_cases h2 : simpleFold (simpleFold sr) ≠ sr ∧
        (simpleFold (simpleFold sr)).toNat < tr.toNat
    · have h3 : simpleFold (simpleFold (simpleFold sr)) = sr := by
        rcases simpleFold_orbit sr with h | h | h
        · exact absurd h h1.1
        · exact absurd h h2.1
        · exact h
      refine ⟨sr, ?_⟩
      rw [e, if_pos h1, e, if_pos h2, e, h3, if_neg (fun h => h.1 rfl)]
    · exact ⟨simpleFold (simpleFold sr), by rw [e, if_pos h1, e, if_neg h2]⟩
  · exact ⟨simpleFold sr, by rw [e, if_neg h1]⟩

theorem EqualFold_yes (t : String) : EqualFold t "yes" = isYes t := by
  have hyes : ("yes" : String).data = ['y', 'e', 's'] := rfl
  unfold EqualFold isYes
  rw [hyes]
  rcases t.data with _ | ⟨a, _ | ⟨b, _ | ⟨c, _ | ⟨d, rest⟩⟩⟩⟩
  · rfl
  · simp [equalFoldChars]
  · simp [equalFoldChars]
  · simp only [equalFoldChars, Bool.and_true]
    rw [Bool.eq_iff_iff]
    simp only [Bool.and_eq_true, Bool.or_eq_true, beq_iff_eq, runeEqualFold_y,
      runeEqualFold_e, runeEqualFold_s]
    tauto
  · simp [equalFoldChars]

theorem findSelected_of_no_match (id : Int) (items : List MenuItem)
    (h : ∀ item ∈ items, item.ID ≠ id) : findSelected id items = MenuItem.zero := by
  induction items with
  | nil => rfl
  | cons a rest ih =>
    have ha : a.ID ≠ id := h a (List.mem_cons_self a rest)
    have hr : ∀ item ∈ rest, item.ID ≠ id := fun x hx => h x (List.mem_cons_of_mem a hx)
    simp [findSelected, ha, ih hr]

theorem findSelected_of_match (id : Int) (items : List MenuItem)
    (h : ∃ item ∈ items, item.ID = id) : (findSelected id items).ID = id := by
  induction items with
  | nil => simp at h
  | cons a rest ih =>
    by_cases ha : a.ID = id
    · simp [findSelected, ha]
    · have hr : ∃ item ∈ rest, item.ID = id := by
        obtain ⟨x, hx, hxid⟩ := h
        rcases List.mem_cons.mp hx with rfl | hx
        · exact absurd hxid ha
        · exact ⟨x, hx, hxid⟩
      simp [findSelected, ha, ih hr]

theorem displayLoop_no_call (items : List MenuItem) (i : Int) :
    Event.fetchRecipeCall i ∉ displayLoop items := by
  induction items with
  | nil => simp [displayLoop]
  | cons a rest ih => simp [displayLoop, ih]

theorem searchMenuItems_events (w : World) (query : String) :
    (searchMenuItems w query).1 = [] ∨
      ∃ key, (searchMenuItems w query).1 = [.httpGet (searchURL query) key] := by
  unfold searchMenuItems
  cases loadAPIKey w with
  | fatal m => exact Or.inl rfl
  | panicked m => exact Or.inl rfl
  | ret key =>
    dsimp only
    cases w.newRequestError (searchURL query) with
    | some e => exact Or.inl rfl
    | none =>
      dsimp only
      cases w.roundTrip (searchURL query) key with
      | failed e => exact Or.inr ⟨key, rfl⟩
      | redirectFailed c e => exact Or.inr ⟨key, rfl⟩
      | response resp =>
        dsimp only
        split
        · exact Or.inr ⟨key, rfl⟩
        · cases decodeSearch w resp.Body with
          | error e => exact Or.inr ⟨key, rfl⟩
          | ok items => exact Or.inr ⟨key, rfl⟩

theorem searchMenuItems_no_call (w : World) (query : String) (i : Int) :
    Event.fetchRecipeCall i ∉ (searchMenuItems w query).1 := by
  rcases searchMenuItems_events w query with h | ⟨key, h⟩ <;> simp [h]

theorem detailStep_starts_with_call (w : World) (item : MenuItem) (input : List Char) :
    ∃ rest, (detailStep w item input).1 = .fetchRecipeCall item.ID :: rest := by
  unfold detailStep
  split
  · exact ⟨_, rfl⟩
  · exact ⟨_, rfl⟩
  · exact ⟨_, rfl⟩
  · rename_i ev r _
    exact ⟨ev ++ detailOutput w item r ++ confirmStep r input, by simp⟩

/-! ## Selection (claims C1, C2, C3) -/

/-- C1, evaluated at the input on which it fails: the search result `sampleItems` lists
an item with identifier 0 and the user types `0`, yet `runCLI` prints the 'not found'
message, ends normally and never calls `fetchRecipe`. -/
theorem runCLI_id_zero_not_found :
    (∃ item ∈ sampleItems, item.ID = 0) ∧
    Atoi (trimSpace "0\n") = some 0 ∧
    runCLI (sampleWorld 200 (.ok sampleRecipeBody)) "burger" "0\nyes\n" =
      (.httpGet (searchURL "burger") "secret" :: .stdout bannerText :: .stdout ruleLine ::
        displayLoop sampleItems ++ [.stdout idPrompt, .stdout notFoundText], .normal) := by
  refine ⟨⟨⟨0, "Shake", "Shake Shed", "https://img.example/s.png", ⟨⟨0⟩, "5g", "6g", "50g"⟩⟩,
    by simp [sampleItems], rfl⟩, by decide, by decide⟩

/-- The selection of a listed identifier other than 0: the 'not found' message is not
what the selection step prints, and `fetchRecipe` is invoked with exactly that
identifier right after the prompt. -/
theorem runCLI_selects_nonzero_id (w : World) (query stdin : String) (ev : List Event)
    (items : List MenuItem) (id : Int)
    (hsearch : searchMenuItems w query = (ev, .ret (items, none)))
    (hparse : Atoi (trimSpace ⟨(readString '\n' stdin.data).1⟩) = some id)
    (hmem : ∃ item ∈ items, item.ID = id) (hid : id ≠ 0) :
    ∃ rest, (runCLI w query stdin).1 =
      ev ++ .stdout bannerText :: .stdout ruleLine :: displayLoop items ++
        .stdout idPrompt :: .fetchRecipeCall id :: rest := by
  have hsel : (findSelected id items).ID = id := findSelected_of_match id items hmem
  have hne : (findSelected id items).ID ≠ 0 := by rw [hsel]; exact hid
  obtain ⟨rest, hrest⟩ :=
    detailStep_starts_with_call w (findSelected id items) (readString '\n' stdin.data).2
  refine ⟨rest, ?_⟩
  simp only [runCLI, hsearch, selectionStep, hparse, if_neg hne]
  rw [hrest, hsel]

theorem runCLI_selects_nonzero_id_witness :
    ∃ rest, (runCLI (sampleWorld 200 (.ok sampleRecipeBody)) "burger" "42\nno\n").1 =
      [.httpGet (searchURL "burger") "secret"] ++ .stdout bannerText :: .stdout ruleLine ::
        displayLoop sampleItems ++ .stdout idPrompt :: .fetchRecipeCall 42 :: rest :=
  runCLI_selects_nonzero_id (sampleWorld 200 (.ok sampleRecipeBody)) "burger" "42\nno\n"
    [.httpGet (searchURL "burger") "secret"] sampleItems 42 (by decide) (by decide)
    (by decide) (by decide)

/-- C2: when the selection line parses as the integer `id` and no item of the search
result has that `ID`, `runCLI` prints the 'No matching item found' message right after
the prompt, ends normally, and its trace has no call of `fetchRecipe`. -/
theorem runCLI_unmatched_id (w : World) (query stdin : String) (ev : List Event)
    (items : List MenuItem) (id : Int)
    (hsearch : searchMenuItems w query = (ev, .ret (items, none)))
    (hparse : Atoi (trimSpace ⟨(readString '\n' stdin.data).1⟩) = some id)
    (hno : ∀ item ∈ items, item.ID ≠ id) :
    runCLI w query stdin =
      (ev ++ .stdout bannerText :: .stdout ruleLine :: displayLoop items ++
        [.stdout idPrompt, .stdout notFoundText], .normal) ∧
    ∀ i, Event.fetchRecipeCall i ∉ (runCLI w query stdin).1 := by
  have hz : findSelected id items = MenuItem.zero := findSelected_of_no_match id items hno
  have hrun : runCLI w query stdin =
      (ev ++ .stdout bannerText :: .stdout ruleLine :: displayLoop items ++
        [.stdout idPrompt, .stdout notFoundText], .normal) := by
    simp [runCLI, hsearch, selectionStep, hparse, hz, MenuItem.zero]
  refine ⟨hrun, fun i => ?_⟩
  have hev : Event.fetchRecipeCall i ∉ ev := by
    have := searchMenuItems_no_call w query i
    rwa [hsearch] at this
  rw [hrun]
  simp [hev, displayLoop_no_call]

theorem runCLI_unmatched_id_witness :
    runCLI (sampleWorld 200 (.ok sampleRecipeBody)) "burger" "5\nyes\n" =
      ([.httpGet (searchURL "burger") "secret"] ++ .stdout bannerText :: .stdout ruleLine ::
        displayLoop sampleItems ++ [.stdout idPrompt, .stdout notFoundText], .normal) ∧
    ∀ i, Event.fetchRecipeCall i ∉
      (runCLI (sampleWorld 200 (.ok sampleRecipeBody)) "burger" "5\nyes\n").1 :=
  runCLI_unmatched_id (sampleWorld 200 (.ok sampleRecipeBody)) "burger" "5\nyes\n"
    [.httpGet (searchURL "burger") "secret"] sampleItems 5 (by decide) (by decide)
    (by decide)

/-- C3: when the trimmed selection line is not accepted by `strconv.Atoi`, `runCLI`
prints the 'Invalid ID' message right after the prompt, ends normally, and its trace has
no call of `fetchRecipe`, whatever items the search returned. -/
theorem runCLI_invalid_id (w : World) (query stdin : String) (ev : List Event)
    (items : List MenuItem)
    (hsearch : searchMenuItems w query = (ev, .ret (items, none)))
    (hparse : Atoi (trimSpace ⟨(readString '\n' stdin.data).1⟩) = none) :
    runCLI w query stdin =
      (ev ++ .stdout bannerText :: .stdout ruleLine :: displayLoop items ++
        [.stdout idPrompt, .stdout invalidIDText], .normal) ∧
    ∀ i, Event.fetchRecipeCall i ∉ (runCLI w query stdin).1 := by
  have hrun : runCLI w query stdin =
      (ev ++ .stdout bannerText :: .stdout ruleLine :: displayLoop items ++
        [.stdout idPrompt, .stdout invalidIDText], .normal) := by
    simp [runCLI, hsearch, selectionStep, hparse]
  refine ⟨hrun, fun i => ?_⟩
  have hev : Event.fetchRecipeCall i ∉ ev := by
    have := searchMenuItems_no_call w query i
    rwa [hsearch] at this
  rw [hrun]
  simp [hev, displayLoop_no_call]

theorem runCLI_invalid_id_witness :
    runCLI (sampleWorld 200 (.ok sampleRecipeBody)) "burger" "4 2\nyes\n" =
      ([.httpGet (searchURL "burger") "secret"] ++ .stdout bannerText :: .stdout ruleLine ::
        displayLoop sampleItems ++ [.stdout idPrompt, .stdout invalidIDText], .normal) ∧
    ∀ i, Event.fetchRecipeCall i ∉
      (runCLI (sampleWorld 200 (.ok sampleRecipeBody)) "burger" "4 2\nyes\n").1 :=
  runCLI_invalid_id (sampleWorld 200 (.ok sampleRecipeBody)) "burger" "4 2\nyes\n"
    [.httpGet (searchURL "burger") "secret"] sampleItems (by decide) (by decide)

/-! ## The search URL (claim C5) -/

theorem pctDecode_cons_plain (c : Char) (rest : List Char) (hc : c ≠ '%') :
    pctDecode (c :: rest) =
      match pctDecode rest with
      | some bytes => some ((if c = '+' then [0x20] else utf8Bytes [c]) ++ bytes)
      | none => none := by
  rcases rest with _ | ⟨h, _ | ⟨l, rest2⟩⟩ <;> simp [pctDecode, hc]

theorem pctDecode_plain (q : List Char) (h : ∀ c ∈ q, c ≠ '%' ∧ c ≠ '+') :
    pctDecode q = some (utf8Bytes q) := by
  induction q with
  | nil => rfl
  | cons c rest ih =>
    have hc := h c (List.mem_cons_self c rest)
    have hr : ∀ x ∈ rest, x ≠ '%' ∧ x ≠ '+' := fun x hx => h x (List.mem_cons_of_mem c hx)
    rw [pctDecode_cons_plain c rest hc.1, ih hr, if_neg hc.2]
    simp [utf8Bytes]

theorem splitOnChar_append (sep : Char) (a b : List Char) (h : ∀ c ∈ a, c ≠ sep) :
    splitOnChar sep (a ++ sep :: b) = a :: splitOnChar sep b := by
  induction a with
  | nil => simp [splitOnChar]
  | cons c rest ih =>
    have hc := h c (List.mem_cons_self c rest)
    have hr : ∀ x ∈ rest, x ≠ sep := fun x hx => h x (List.mem_cons_of_mem c hx)
    rw [List.cons_append, splitOnChar, if_neg hc, ih hr]

theorem dropWhile_ne_head (d : Char) (l : List Char) :
    (d :: l).dropWhile (fun c => c != d) = d :: l := by
  simp [List.dropWhile]

theorem takeWhile_ne_head (d : Char) (l : List Char) :
    (d :: l).takeWhile (fun c => c != d) = [] := by
  simp [List.takeWhile]

/-- The value read for parameter `query` of the search URL when the query has none of
the characters `#`, `&`, `%`, `+`: the bytes of the query. -/
theorem queryValue_searchURL_plain (query : String)
    (h : ∀ c ∈ query.data, c ≠ '#' ∧ c ≠ '&' ∧ c ≠ '%' ∧ c ≠ '+') :
    queryValue (searchURL query) "query" = some (utf8Bytes query.data) := by
  have hdata : (searchURL query).data =
      "https://api.apilayer.com/spoonacular/food/menuItems/search".data ++
        ('?' :: (("query".data ++ '=' :: query.data) ++
          '&' :: "addMenuItemInformation=true".data)) := by
    simp [searchURL, searchAPI, String.data_append]
  have hpre : ∀ c ∈ "https://api.apilayer.com/spoonacular/food/menuItems/search".data,
      (fun c => c != '?') c = true := by decide
  have hk1 : ∀ c ∈ "query".data, c ≠ '#' ∧ c ≠ '&' := by decide
  have hk2 : ∀ c ∈ "addMenuItemInformation=true".data, c ≠ '#' := by decide
  have hq : queryComponent (searchURL query).data =
      ("query".data ++ '=' :: query.data) ++ '&' :: "addMenuItemInformation=true".data := by
    unfold queryComponent
    rw [hdata, List.dropWhile_append_of_pos hpre, dropWhile_ne_head, List.drop_one,
      List.tail_cons, List.takeWhile_eq_self_iff]
    intro c hc
    rcases List.mem_append.mp hc with hc | hc
    · rcases List.mem_append.mp hc with hc | hc
      · simpa using (hk1 c hc).1
      · rcases List.mem_cons.mp hc with hc | hc
        · subst hc; decide
        · simpa using (h c hc).1
    · rcases List.mem_cons.mp hc with hc | hc
      · subst hc; decide
      · simpa using hk2 c hc
  have hsplit : splitOnChar '&' (queryComponent (searchURL query).data) =
      ("query".data ++ '=' :: query.data) ::
        splitOnChar '&' "addMenuItemInformation=true".data := by
    rw [hq]
    apply splitOnChar_append
    intro c hc
    rcases List.mem_append.mp hc with hc | hc
    · exact (hk1 c hc).2
    · rcases List.mem_cons.mp hc with hc | hc
      · subst hc; decide
      · exact (h c hc).2.1
  have hq5 : ∀ c ∈ "query".data, (fun c => c != '=') c = true := by decide
  have hname : ("query".data ++ '=' :: query.data).takeWhile (fun c => c != '=') =
      "query".data := by
    rw [List.takeWhile_append_of_pos hq5, takeWhile_ne_head, List.append_nil]
  have hvalue : (("query".data ++ '=' :: query.data).dropWhile (fun c => c != '=')).drop 1 =
      query.data := by
    rw [List.dropWhile_append_of_pos hq5, dropWhile_ne_head, List.drop_one, List.tail_cons]
  have hkey : pctDecode "query".data = some (utf8Bytes "query".data) := by decide
  unfold queryValue
  rw [hsplit, firstValue, hname, hvalue, if_pos hkey]
  exact pctDecode_plain query.data fun c hc => ⟨(h c hc).2.2.1, (h c hc).2.2.2⟩

theorem isUnreserved_ne (c d : Char) (hc : isUnreserved c = true)
    (hd : isUnreserved d = false) : c ≠ d := by
  intro h
  rw [h, hd] at hc
  exact Bool.false_ne_true hc

/-- C5 fails: for the query `a&b` the URL carries the `&` as it is, so the server reads
`a` for the parameter `query` and not `a&b`; for `50%` the parameter does not decode at
all, for `a#b` the value is cut at the `#`, and for `big mac` the URL has a raw space. -/
theorem searchURL_reserved_not_encoded :
    searchURL "a&b" =
      "https://api.apilayer.com/spoonacular/food/menuItems/search?query=a&b&addMenuItemInformation=true" ∧
    queryValue (searchURL "a&b") "query" = some (utf8Bytes "a".data) ∧
    queryValue (searchURL "a&b") "query" ≠ some (utf8Bytes "a&b".data) ∧
    queryValue (searchURL "50%") "query" = none ∧
    queryValue (searchURL "a#b") "query" = some (utf8Bytes "a".data) ∧
    ' ' ∈ (searchURL "big mac").data := by
  refine ⟨by decide, by decide, by decide, by decide, by decide, by decide⟩

/-- C5 as amended: `searchMenuItems` puts the query between `searchAPI` and
`&addMenuItemInformation=true` exactly as it is given, without percent-encoding; when
the query consists of unreserved characters only, the parameter `query` of the URL
decodes back to the query. -/
theorem searchURL_verbatim (query : String) :
    searchURL query = searchAPI ++ query ++ "&addMenuItemInformation=true" ∧
    (searchURL query).data = searchAPI.data ++ query.data ++
      "&addMenuItemInformation=true".data ∧
    ((∀ c ∈ query.data, isUnreserved c = true) →
      queryValue (searchURL query) "query" = some (utf8Bytes query.data)) := by
  refine ⟨rfl, by simp [searchURL, String.data_append], fun h => ?_⟩
  apply queryValue_searchURL_plain
  intro c hc
  exact ⟨isUnreserved_ne c '#' (h c hc) (by decide), isUnreserved_ne c '&' (h c hc) (by decide),
    isUnreserved_ne c '%' (h c hc) (by decide), isUnreserved_ne c '+' (h c hc) (by decide)⟩

theorem searchURL_verbatim_witness :
    queryValue (searchURL "burger") "query" = some (utf8Bytes "burger".data) :=
  (searchURL_verbatim "burger").2.2 (by decide)

/-! ## List display (claim C6) -/

/-- C6: for a search result of N items the list-display loop emits exactly the entries
of the items, one after the other in the order of the list (so N entries, none for an
empty list), and the i-th entry shows `ID`, `Title` and `RestaurantChain` of the i-th
item; in a run of `runCLI` whose search succeeded these entries stand between the
banner and the selection step. -/
theorem displayLoop_entries (items : List MenuItem) :
    displayLoop items = (items.map entryOf).flatten ∧
    (items.map entryOf).length = items.length ∧
    (∀ i : Nat, (items.map entryOf)[i]? = items[i]?.map fun (item : MenuItem) =>
      [ Event.stdout ("\x1b[1;36m" ++ fmtD3 item.ID ++ " - " ++ item.Title ++ "\x1b[0m\n"),
        Event.stdout ("\x1b[1;32m   Restaurant: \x1b[0m" ++ item.RestaurantChain ++ "\n"),
        Event.stdout ruleLine ]) ∧
    displayLoop [] = [] ∧
    ∀ (w : World) (query stdin : String) (ev : List Event),
      searchMenuItems w query = (ev, .ret (items, none)) →
      (runCLI w query stdin).1 =
        ev ++ .stdout bannerText :: .stdout ruleLine :: (items.map entryOf).flatten ++
          (selectionStep w items stdin.data).1 := by
  have hflat : displayLoop items = (items.map entryOf).flatten := by
    induction items with
    | nil => rfl
    | cons a rest ih =>
      simp only [displayLoop, List.map_cons, List.flatten_cons, ih]
      rfl
  refine ⟨hflat, List.length_map _ _, fun i => ?_, rfl, ?_⟩
  · rw [List.getElem?_map]
    rfl
  · intro w query stdin ev hsearch
    simp only [runCLI, hsearch, hflat]

theorem displayLoop_entries_witness :
    (runCLI (sampleWorld 200 (.ok sampleRecipeBody)) "burger" "x\n").1 =
      [.httpGet (searchURL "burger") "secret"] ++ .stdout bannerText :: .stdout ruleLine ::
        (sampleItems.map entryOf).flatten ++
        (selectionStep (sampleWorld 200 (.ok sampleRecipeBody)) sampleItems "x\n".data).1 :=
  (displayLoop_entries sampleItems).2.2.2.2 (sampleWorld 200 (.ok sampleRecipeBody))
    "burger" "x\n" [.httpGet (searchURL "burger") "secret"] (by decide)

/-! ## Confirmation (claim C4) -/

/-- C4: in a run that reaches the confirmation prompt, the header and the recipe's
`Instructions` are printed after the prompt when the trimmed confirmation line equals
`yes` up to letter case, and the decline message alone is printed in every other case;
`strings.EqualFold` against `yes` accepts exactly those spellings, so `Yes`, `YES` and
`yes ` are accepted and `y`, `no` and the empty line are not. -/
theorem runCLI_confirmation (w : World) (query stdin : String) (ev ev2 : List Event)
    (items : List MenuItem) (id : Int) (recipe : RecipeResponse)
    (hsearch : searchMenuItems w query = (ev, .ret (items, none)))
    (hparse : Atoi (trimSpace ⟨(readString '\n' stdin.data).1⟩) = some id)
    (hfound : (findSelected id items).ID ≠ 0)
    (hfetch : fetchRecipe w (findSelected id items).ID = (ev2, .ret (recipe, none))) :
    (isYes (confirmationAnswer stdin) = true →
      runCLI w query stdin =
        (ev ++ .stdout bannerText :: .stdout ruleLine :: displayLoop items ++
          .stdout idPrompt :: .fetchRecipeCall (findSelected id items).ID :: ev2 ++
          detailOutput w (findSelected id items) recipe ++
          [.stdout recipePrompt, .stdout instructionsHeader,
            .stdout (recipe.Instructions ++ "\n")], .normal)) ∧
    (isYes (confirmationAnswer stdin) = false →
      runCLI w query stdin =
        (ev ++ .stdout bannerText :: .stdout ruleLine :: displayLoop items ++
          .stdout idPrompt :: .fetchRecipeCall (findSelected id items).ID :: ev2 ++
          detailOutput w (findSelected id items) recipe ++
          [.stdout recipePrompt, .stdout declineText], .normal)) ∧
    (∀ t : String, EqualFold t "yes" = isYes t) ∧
    isYes (trimSpace "Yes\n") = true ∧ isYes (trimSpace "YES\n") = true ∧
    isYes (trimSpace "yes \n") = true ∧ isYes (trimSpace "y\n") = false ∧
    isYes (trimSpace "no\n") = false ∧ isYes (trimSpace "\n") = false := by
  refine ⟨fun h => ?_, fun h => ?_, EqualFold_yes, by decide, by decide, by decide,
    by decide, by decide, by decide⟩
  · have h2 : EqualFold (trimSpace ⟨(readString '\n' (readString '\n' stdin.data).2).1⟩)
        "yes" = true := by rw [EqualFold_yes]; exact h
    simp only [runCLI, hsearch, selectionStep, hparse, if_neg hfound, detailStep, hfetch,
      confirmStep, h2, if_true]
    simp
  · have h2 : EqualFold (trimSpace ⟨(readString '\n' (readString '\n' stdin.data).2).1⟩)
        "yes" = false := by rw [EqualFold_yes]; exact h
    simp only [runCLI, hsearch, selectionStep, hparse, if_neg hfound, detailStep, hfetch,
      confirmStep, h2]
    simp

theorem runCLI_confirmation_witness :
    runCLI (sampleWorld 200 (.ok sampleRecipeBody)) "burger" "42\nYES\n" =
      ([.httpGet (searchURL "burger") "secret"] ++ .stdout bannerText :: .stdout ruleLine ::
        displayLoop sampleItems ++
        .stdout idPrompt :: .fetchRecipeCall (findSelected 42 sampleItems).ID ::
        [.httpGet (recipeURL 42) "secret"] ++
        detailOutput (sampleWorld 200 (.ok sampleRecipeBody)) (findSelected 42 sampleItems)
          ⟨"Grill it.", true, 15, 2, false⟩ ++
        [.stdout recipePrompt, .stdout instructionsHeader,
          .stdout ((⟨"Grill it.", true, 15, 2, false⟩ : RecipeResponse).Instructions ++ "\n")],
        .normal) :=
  (runCLI_confirmation (sampleWorld 200 (.ok sampleRecipeBody)) "burger" "42\nYES\n"
    [.httpGet (searchURL "burger") "secret"] [.httpGet (recipeURL 42) "secret"] sampleItems 42
    ⟨"Grill it.", true, 15, 2, false⟩ (by decide) (by decide) (by decide) (by decide)).1
    (by decide)

/-! ## Credential (claim C9) -/

/-- C9: `loadAPIKey` either returns the configured value of `API_KEY`, which is then
not empty, or ends the process with `log.Fatal`; it never returns the empty string; and
when it ends the process, `searchMenuItems`, `fetchRecipe` and `runCLI` end the same way
without any event, in particular without an HTTP request. -/
theorem loadAPIKey_contract (w : World) :
    ((∃ file key, w.dotenv = some file ∧ key = getenvAfterLoad w file "API_KEY" ∧
        key ≠ "" ∧ loadAPIKey w = .ret key) ∨
      (∃ msg, loadAPIKey w = .fatal msg ∧
        (w.dotenv = none ∨ ∃ file, w.dotenv = some file ∧
          getenvAfterLoad w file "API_KEY" = ""))) ∧
    loadAPIKey w ≠ .ret "" ∧
    (∀ msg, loadAPIKey w = .fatal msg →
      ∀ (query stdin : String) (id : Int),
        searchMenuItems w query = ([], .fatal msg) ∧
        fetchRecipe w id = ([], .fatal msg) ∧
        runCLI w query stdin = ([], .fatal msg)) := by
  refine ⟨?_, ?_, ?_⟩
  · unfold loadAPIKey
    cases hd : w.dotenv with
    | none => exact Or.inr ⟨_, rfl, Or.inl rfl⟩
    | some file =>
      by_cases hk : getenvAfterLoad w file "API_KEY" = ""
      · exact Or.inr ⟨"API key not found in environment variables", by simp [hk],
          Or.inr ⟨file, rfl, hk⟩⟩
      · exact Or.inl ⟨file, _, rfl, rfl, hk, by simp [hk]⟩
  · unfold loadAPIKey
    cases w.dotenv with
    | none => simp
    | some file =>
      by_cases hk : getenvAfterLoad w file "API_KEY" = ""
      · simp [hk]
      · simp only [if_neg hk]
        intro h
        exact hk (Result.ret.inj h)
  · intro msg h query stdin id
    have hs : searchMenuItems w query = ([], .fatal msg) := by simp [searchMenuItems, h]
    exact ⟨hs, by simp [fetchRecipe, h], by simp [runCLI, hs]⟩

theorem loadAPIKey_contract_witness :
    searchMenuItems noDotenvWorld "burger" = ([], .fatal "Error loading .env file") ∧
    fetchRecipe noDotenvWorld 42 = ([], .fatal "Error loading .env file") ∧
    runCLI noDotenvWorld "burger" "42\n" = ([], .fatal "Error loading .env file") :=
  (loadAPIKey_contract noDotenvWorld).2.2 "Error loading .env file" (by decide)
    "burger" "42\n" 42

/-! ## `searchMenuItems` failures (claim C8) -/

/-- C8: once the request is built, `searchMenuItems` answers a response of status 401
with no items and the 'unauthorized' error whatever the body is; a response of another
status with no items and the decoding error when the body does not decode, and with the
decoded items and a nil error when it does; a failed exchange with no items and the
transport error.  Decoding and transport errors differ from the 'unauthorized' error. -/
theorem searchMenuItems_failures (w : World) (query apiKey : String)
    (hkey : loadAPIKey w = .ret apiKey)
    (hreq : w.newRequestError (searchURL query) = none) :
    (∀ resp, w.roundTrip (searchURL query) apiKey = .response resp →
      (resp.StatusCode = 401 →
        searchMenuItems w query =
          ([.httpGet (searchURL query) apiKey], .ret ([], some unauthorizedError))) ∧
      (resp.StatusCode ≠ 401 →
        (∀ e, decodeSearch w resp.Body = .error e →
          searchMenuItems w query =
            ([.httpGet (searchURL query) apiKey], .ret ([], some (.decode e))) ∧
          GoError.decode e ≠ unauthorizedError) ∧
        (∀ items, decodeSearch w resp.Body = .ok items →
          searchMenuItems w query =
            ([.httpGet (searchURL query) apiKey], .ret (items, none))))) ∧
    (∀ e, w.roundTrip (searchURL query) apiKey = .failed e →
      searchMenuItems w query =
        ([.httpGet (searchURL query) apiKey], .ret ([], some (.transport e))) ∧
      GoError.transport e ≠ unauthorizedError) := by
  refine ⟨fun resp hresp => ⟨fun h401 => ?_, fun hne => ⟨fun e he => ⟨?_, ?_⟩,
    fun items hi => ?_⟩⟩, fun e he => ⟨?_, ?_⟩⟩
  · simp [searchMenuItems, hkey, hreq, hresp, h401]
  · simp [searchMenuItems, hkey, hreq, hresp, hne, he]
  · simp [unauthorizedError]
  · simp [searchMenuItems, hkey, hreq, hresp, hne, hi]
  · simp [searchMenuItems, hkey, hreq, he]
  · simp [unauthorizedError]

theorem searchMenuItems_failures_witness :
    searchMenuItems (sampleWorld 200 (.ok sampleRecipeBody)) "burger" =
      ([.httpGet (searchURL "burger") "secret"], .ret (sampleItems, none)) :=
  ((searchMenuItems_failures (sampleWorld 200 (.ok sampleRecipeBody)) "burger" "secret"
    (by decide) (by decide)).1 ⟨200, .ok (.obj [])⟩ (by rfl)).2 (by decide) |>.2
    sampleItems (by rfl)

/-! ## `fetchRecipe` (claims C7, C10) -/

/-- C7 fails: the server answers with status 500 and a body that decodes, and
`fetchRecipe` returns the decoded struct with a nil error. -/
theorem fetchRecipe_status_500_nil_error :
    fetchRecipe (sampleWorld 500 (.ok sampleRecipeBody)) 42 =
      ([.httpGet (recipeURL 42) "secret"], .ret (⟨"Grill it.", true, 15, 2, false⟩, none)) := by
  decide

/-- What `fetchRecipe` does on the two paths where it assigns an error and does not
return it: a body that does not decode yields the zero struct and a nil error, and a
failed exchange ends in the nil dereference of `defer resp.Body.Close()`. -/
theorem fetchRecipe_drops_errors :
    fetchRecipe (sampleWorld 200 (.error "unexpected EOF")) 42 =
      ([.httpGet (recipeURL 42) "secret"], .ret (RecipeResponse.zero, none)) ∧
    fetchRecipe { sampleWorld 200 (.error "") with roundTrip := fun _ _ => .failed "timeout" } 42 =
      ([.httpGet (recipeURL 42) "secret"],
        .panicked "runtime error: invalid memory address or nil pointer dereference") := by
  refine ⟨by decide, by decide⟩

/-- C7 as amended: `fetchRecipe` returns a non-nil error when the request cannot be
created, and it does not look at the status of the response: for a response of any
status other than 401 whose body decodes it returns the decoded struct and a nil
error, 2xx or not. -/
theorem fetchRecipe_ignores_status (w : World) (id : Int) (apiKey : String)
    (hkey : loadAPIKey w = .ret apiKey) :
    (∀ e, w.newRequestError (recipeURL id) = some e →
      fetchRecipe w id =
        ([], .ret (RecipeResponse.zero,
          some (.wrap "Error creating request: " (.request e))))) ∧
    (∀ resp, w.newRequestError (recipeURL id) = none →
      w.roundTrip (recipeURL id) apiKey = .response resp →
      resp.StatusCode ≠ 401 → (decodeRecipe resp.Body).2 = none →
      fetchRecipe w id =
        ([.httpGet (recipeURL id) apiKey], .ret ((decodeRecipe resp.Body).1, none))) := by
  refine ⟨fun e he => ?_, fun resp hreq hresp _ _ => ?_⟩
  · simp [fetchRecipe, hkey, he]
  · simp [fetchRecipe, hkey, hreq, hresp]

theorem fetchRecipe_ignores_status_witness :
    fetchRecipe (sampleWorld 404 (.ok sampleRecipeBody)) 7 =
      ([.httpGet (recipeURL 7) "secret"],
        .ret ((decodeRecipe (.ok sampleRecipeBody)).1, none)) :=
  (fetchRecipe_ignores_status (sampleWorld 404 (.ok sampleRecipeBody)) 7 "secret"
    (by decide)).2 ⟨404, .ok sampleRecipeBody⟩ (by decide) (by rfl) (by decide) (by decide)

theorem storeMember_vegan (r : RecipeResponse) (k : String) (v : JSON) :
    (storeMember r k v).1.vegan = r.vegan := by
  unfold storeMember
  split_ifs <;> (try split) <;> (try split) <;> rfl

theorem storeMembers_vegan (members : List (String × JSON)) (r : RecipeResponse)
    (err : Option String) : (storeMembers members r err).1.vegan = r.vegan := by
  induction members generalizing r err with
  | nil => rfl
  | cons kv rest ih =>
    obtain ⟨k, v⟩ := kv
    rw [storeMembers, ih, storeMember_vegan]

theorem decodeRecipe_vegan (body : Body) : (decodeRecipe body).1.vegan = false := by
  unfold decodeRecipe
  split
  · rfl
  · rw [storeMembers_vegan]; rfl
  · rfl
  · rfl

theorem fetchRecipe_vegan (w : World) (id : Int) (ev : List Event) (r : RecipeResponse)
    (err : Option GoError) (h : fetchRecipe w id = (ev, .ret (r, err))) : r.vegan = false := by
  unfold fetchRecipe at h
  split at h
  · simp at h
  · simp at h
  · dsimp only at h
    split at h
    · simp only [Prod.mk.injEq, Result.ret.injEq] at h
      rw [← h.2.1]; rfl
    · split at h
      · simp at h
      · simp only [Prod.mk.injEq, Result.ret.injEq] at h
        rw [← h.2.1]; exact decodeRecipe_vegan _
      · simp only [Prod.mk.injEq, Result.ret.injEq] at h
        rw [← h.2.1]; exact decodeRecipe_vegan _

theorem keyMatches_iff (tag k : String) :
    keyMatches tag k = true ↔ k.data.map foldRune = tag.data.map foldRune := by
  unfold keyMatches
  simp only [Bool.or_eq_true, beq_iff_eq]
  constructor
  · rintro (h | h)
    · rw [h]
    · exact h
  · exact Or.inr

theorem keyMatches_distinct (t1 t2 k : String)
    (hne : t1.data.map foldRune ≠ t2.data.map foldRune) (h : keyMatches t1 k = true) :
    keyMatches t2 k = false := by
  rw [Bool.eq_false_iff]
  intro h2
  rw [keyMatches_iff] at h h2
  exact hne (h.symm.trans h2)

theorem storeMember_glutenFree (r : RecipeResponse) (k : String) (v : JSON) :
    (storeMember r k v).1.GlutenFree =
      ((boolMembers "glutenFree" [(k, v)]).getLast?).getD r.GlutenFree := by
  unfold storeMember boolMembers
  by_cases h1 : keyMatches "instructions" k = true
  · have h2 := keyMatches_distinct "instructions" "glutenFree" k (by decide) h1
    rw [if_pos h1]
    cases v <;> simp [h2]
  · rw [if_neg h1]
    by_cases h2 : keyMatches "glutenFree" k = true
    · rw [if_pos h2]
      cases v <;> simp [h2]
    · rw [if_neg h2]
      have h2f : keyMatches "glutenFree" k = false := by simpa using h2
      split_ifs <;> cases v <;> simp [h2f] <;> split <;> rfl

theorem getLast?_append_getD (l1 l2 : List Bool) (x : Bool) :
    ((l1 ++ l2).getLast?).getD x = (l2.getLast?).getD ((l1.getLast?).getD x) := by
  induction l1 generalizing x with
  | nil => simp
  | cons b rest ih =>
    rw [List.cons_append, List.getLast?_cons, List.getLast?_cons, Option.getD_some,
      Option.getD_some, ih]

theorem storeMembers_glutenFree (members : List (String × JSON)) (r : RecipeResponse)
    (err : Option String) :
    (storeMembers members r err).1.GlutenFree =
      ((boolMembers "glutenFree" members).getLast?).getD r.GlutenFree := by
  induction members generalizing r err with
  | nil => rfl
  | cons kv rest ih =>
    obtain ⟨k, v⟩ := kv
    have happ : boolMembers "glutenFree" ((k, v) :: rest) =
        boolMembers "glutenFree" [(k, v)] ++ boolMembers "glutenFree" rest := by
      unfold boolMembers
      rw [← List.filterMap_append]
      rfl
    rw [storeMembers, ih, storeMember_glutenFree, happ, getLast?_append_getD]

theorem decodeRecipe_glutenFree (body : Body) :
    (decodeRecipe body).1.GlutenFree = (lastBoolMember "glutenFree" body == some true) := by
  cases body with
  | error e => rfl
  | ok j =>
    cases j with
    | obj m =>
      show (storeMembers m RecipeResponse.zero none).1.GlutenFree =
        ((boolMembers "glutenFree" m).getLast? == some true)
      rw [storeMembers_glutenFree]
      generalize (boolMembers "glutenFree" m).getLast? = o
      cases o with
      | none => rfl
      | some b => cases b <;> rfl
    | _ => rfl

/-- C10 fails in its second half: the body has the member `glutenFree` with value
`false` and, after it, the member `GLUTENFREE` with value `true`; `encoding/json` binds
both to the field `GlutenFree`, the later one wins, and `getGlutenFreeStatus` returns the
'Yes' text although the body's `glutenFree` field is not true. -/
theorem glutenFree_case_variant_overrides :
    fieldIsTrue "glutenFree"
      (.ok (.obj [("glutenFree", .bool false), ("GLUTENFREE", .bool true)])) = false ∧
    fetchRecipe (sampleWorld 200
        (.ok (.obj [("glutenFree", .bool false), ("GLUTENFREE", .bool true)]))) 42 =
      ([.httpGet (recipeURL 42) "secret"], .ret (⟨"", true, 0, 0, false⟩, none)) ∧
    getGlutenFreeStatus ⟨"", true, 0, 0, false⟩ = "Yes ✅" := by
  refine ⟨by decide, by decide, by decide⟩

/-- C10 as amended: whatever the response body is, also when its member `vegan` is
true, the struct `fetchRecipe` returns has `vegan` false and `getVeganStatus` returns the
'No' text for it; `getGlutenFreeStatus` returns the 'Yes' text exactly when the last
boolean-valued member of the body object whose name equals `glutenFree` up to letter
case is true. -/
theorem fetchRecipe_vegan_never_set (w : World) (id : Int) :
    (∀ ev r err, fetchRecipe w id = (ev, .ret (r, err)) →
      r.vegan = false ∧ getVeganStatus r = "No ❌") ∧
    (∀ apiKey resp, loadAPIKey w = .ret apiKey → w.newRequestError (recipeURL id) = none →
      w.roundTrip (recipeURL id) apiKey = .response resp →
      ∃ r, fetchRecipe w id = ([.httpGet (recipeURL id) apiKey], .ret (r, none)) ∧
        r.vegan = false ∧ getVeganStatus r = "No ❌" ∧
        (getGlutenFreeStatus r = "Yes ✅" ↔
          lastBoolMember "glutenFree" resp.Body = some true)) := by
  refine ⟨fun ev r err h => ?_, fun apiKey resp hkey hreq hresp => ?_⟩
  · have hv := fetchRecipe_vegan w id ev r err h
    exact ⟨hv, by simp [getVeganStatus, hv]⟩
  · refine ⟨(decodeRecipe resp.Body).1, by simp [fetchRecipe, hkey, hreq, hresp],
      decodeRecipe_vegan _, by simp [getVeganStatus, decodeRecipe_vegan], ?_⟩
    unfold getGlutenFreeStatus
    rw [decodeRecipe_glutenFree]
    by_cases hb : lastBoolMember "glutenFree" resp.Body = some true
    · simp [hb]
    · have hf : (lastBoolMember "glutenFree" resp.Body == some true) = false := by
        simpa using hb
      rw [hf]
      simp only [hb, iff_false]
      decide

theorem fetchRecipe_vegan_never_set_witness :
    (⟨"Grill it.", true, 15, 2, false⟩ : RecipeResponse).vegan = false ∧
    getVeganStatus ⟨"Grill it.", true, 15, 2, false⟩ = "No ❌" :=
  (fetchRecipe_vegan_never_set (sampleWorld 200 (.ok sampleRecipeBody)) 42).1
    [.httpGet (recipeURL 42) "secret"] ⟨"Grill it.", true, 15, 2, false⟩ none (by decide)

end GoProject
